import Mathlib

/-!
Verification of the `simple_html_server` repository: a fixed-size thread
pool (`src/lib.rs`) and an HTTP connection handler (`src/main.rs`).

The embedding has three layers:

* Pure construction layer (`Worker`, `ThreadPool`, `ThreadPool.new`,
  `ThreadPool.build`, `executeResult`, `dropActions`, `joinWorkers`):
  direct translations of the bodies of `ThreadPool::new`,
  `ThreadPool::build`, `ThreadPool::execute` and `impl Drop for ThreadPool`.
  A Rust panic/abort is modelled as `Option.none` or `Except.error`.

* Operational layer (`SysState`, `Step`, `Reachable`): a small-step
  transition system for the running pool.  Each `Step` constructor embeds
  one atomic action of the Rust code: `execute`'s `send` (enqueue on the
  unbounded crossbeam channel), a worker's `recv` returning `Ok(job)`
  (dequeue under the `Mutex` around the shared `Receiver`), a worker
  finishing `job()`, the `drop(self.sender.take())` in `Drop::drop`
  (disconnecting the channel), and a worker's `recv` returning `Err`
  (which in crossbeam happens exactly when the channel is disconnected
  and empty) followed by `break`, ending the thread.

* HTTP layer (`route`, `mkResponse`, `handle_connection`): the pure core
  of `handle_connection` in `src/main.rs`, with the file system abstracted
  as a function from path to contents (the Rust code unwraps the read).
-/

namespace SimpleHtmlServer

/-! ### Pool construction (`src/lib.rs`) -/

/-- One `Worker` as constructed by `Worker::new(id, rx)`: its integer `id`,
the channel whose consumer handle (`Arc<Mutex<channel::Receiver<Job>>>`)
it holds, and whether its `thread : Option<JoinHandle<()>>` is present
(`Some` immediately after `thread::spawn`). -/
structure Worker where
  id : Nat
  rxChannel : Nat
  hasThread : Bool
deriving DecidableEq

/-- The error type returned by `ThreadPool::build`; the single variant is
`PoolCreationError::SizeZero`. -/
inductive PoolCreationError where
  | SizeZero
deriving DecidableEq

/-- `ThreadPool`: the ordered worker vector and the producer handle
`sender : Option<channel::Sender<Job>>`, recorded as the id of the channel
it sends into. -/
structure ThreadPool where
  workers : List Worker
  sender : Option Nat
deriving DecidableEq

/-- The `for i in 0..size` loop of both constructors: push
`Worker::new(i, Arc::clone(&rx))` for each `i`, every worker holding the
consumer handle of the same channel `ch`. -/
def mkWorkers (size : Nat) (ch : Nat) : List Worker :=
  (List.range size).map (fun i => { id := i, rxChannel := ch, hasThread := true })

/-- `ThreadPool::new(size)`: `assert!(size > 0)` aborts the process on
failure (modelled as `none`); otherwise create one unbounded channel
(id `0`), spawn the workers, and keep the sender. -/
def ThreadPool.new (size : Nat) : Option ThreadPool :=
  if size > 0 then
    some { workers := mkWorkers size 0, sender := some 0 }
  else
    none

/-- `ThreadPool::build(size)`: `match size`, returning
`Err(PoolCreationError::SizeZero)` for `0` and otherwise the same pool as
`new` wrapped in `Ok`. -/
def ThreadPool.build (size : Nat) : Except PoolCreationError ThreadPool :=
  match size with
  | 0 => .error .SizeZero
  | _ + 1 => .ok { workers := mkWorkers size 0, sender := some 0 }

/-! ### `ThreadPool::execute` as seen by the submitter -/

/-- The two panics that `execute` can raise:
`self.sender.as_ref().unwrap()` on an absent sender, and
`.send(job).unwrap()` when the channel has no receivers left. -/
inductive ExecPanic where
  | senderAbsent
  | sendFailed
deriving DecidableEq

/-- `ThreadPool::execute`'s effect on the channel buffer:
`self.sender.as_ref().unwrap().send(job).unwrap()`.  `senderPresent` is
`self.sender.is_some()`; `receiverAlive` says some consumer handle still
exists.  On success the job is appended to the FIFO buffer; either unwrap
failing is a panic, modelled as `Except.error`. -/
def executeResult (senderPresent : Bool) (receiverAlive : Bool)
    (queue : List Nat) (j : Nat) : Except ExecPanic (List Nat) :=
  if senderPresent then
    if receiverAlive then .ok (queue ++ [j]) else .error .sendFailed
  else
    .error .senderAbsent

/-! ### `impl Drop for ThreadPool` -/

/-- The atomic actions performed by `Drop::drop`, in order:
`drop(self.sender.take())` and one `join` per worker. -/
inductive DropAction where
  | dropSender
  | join (id : Nat)
deriving DecidableEq

/-- The sequence of actions of `Drop::drop`: first `drop(self.sender.take())`,
then the `for worker in &mut self.workers` loop joining each worker's
thread, accumulated left to right. -/
def dropActions (p : ThreadPool) : List DropAction :=
  p.workers.foldl (fun acc w => acc ++ [DropAction.join w.id]) [DropAction.dropSender]

/-- The join loop of `Drop::drop` over the workers' thread outcomes
(`true` = that worker's thread panicked, so `join` returns `Err`).
`thread.join().unwrap()` panics at the first abnormal outcome; the result
is `ok` when the loop completes, or `error i` naming the position of the
worker whose join made `drop` panic. -/
def joinWorkers : List Bool → Except Nat Unit
  | [] => .ok ()
  | panicked :: rest =>
    if panicked then .error 0
    else (joinWorkers rest).mapError (· + 1)

/-! ### Operational semantics of the running pool -/

/-- The state of one worker's thread: blocked in `recv` (`idle`), running
a job (`busy j`), or exited after `break` (`stopped`). -/
inductive WSt where
  | idle
  | busy (job : Nat)
  | stopped
deriving DecidableEq

/-- Global state of a running pool.  Submitted jobs are numbered in
submission order, so the jobs submitted so far are `0, …, nextId - 1`.
`pending` is the FIFO buffer of the unbounded channel, `closed` records
whether the sender has been dropped, `workers` the per-thread states,
`takes` the (worker, job) dequeue events in order, and `finishes` the
(worker, job) completion events in order. -/
structure SysState where
  nextId : Nat
  pending : List Nat
  closed : Bool
  workers : List WSt
  takes : List (Nat × Nat)
  finishes : List (Nat × Nat)
deriving DecidableEq

/-- The state right after construction of a pool of size `n`: no jobs yet,
channel open and empty, every worker blocked in `recv`. -/
def initState (n : Nat) : SysState :=
  { nextId := 0, pending := [], closed := false
    workers := List.replicate n WSt.idle, takes := [], finishes := [] }

/-- The job a worker is currently executing, if any. -/
def busyOf : WSt → Option Nat
  | .busy j => some j
  | _ => none

/-- Jobs currently being executed by some worker. -/
def busyJobs (s : SysState) : List Nat :=
  s.workers.filterMap busyOf

/-- One atomic transition of the running pool.  Each constructor embeds one
line of `src/lib.rs`:

* `submit`: `execute` sends a fresh job into the open channel
  (`sender.send(job)` on the unbounded channel appends to the buffer).
* `take`: an idle worker's `rx.lock().unwrap().recv()` returns `Ok(job)`,
  removing the head of the FIFO buffer; the `Mutex` guarantees the dequeue
  is atomic, so exactly one worker obtains the job.
* `finish`: a busy worker's `job()` call returns; the worker loops back to
  `recv`.
* `close`: `Drop::drop` runs `drop(self.sender.take())`, disconnecting the
  channel.
* `exits`: a worker's `recv` returns `Err`, which crossbeam yields exactly
  when the channel is disconnected and its buffer is empty; the worker
  logs and `break`s, ending its thread. -/
inductive Step : SysState → SysState → Prop where
  | submit (s : SysState) (h : s.closed = false) :
      Step s { s with nextId := s.nextId + 1, pending := s.pending ++ [s.nextId] }
  | take (s : SysState) (w j : Nat) (rest : List Nat)
      (hw : s.workers[w]? = some WSt.idle) (hq : s.pending = j :: rest) :
      Step s { s with
               pending := rest
               workers := s.workers.set w (WSt.busy j)
               takes := s.takes ++ [(w, j)] }
  | finish (s : SysState) (w j : Nat) (hw : s.workers[w]? = some (WSt.busy j)) :
      Step s { s with
               workers := s.workers.set w WSt.idle
               finishes := s.finishes ++ [(w, j)] }
  | close (s : SysState) (h : s.closed = false) :
      Step s { s with closed := true }
  | exits (s : SysState) (w : Nat) (hw : s.workers[w]? = some WSt.idle)
      (hc : s.closed = true) (hq : s.pending = []) :
      Step s { s with workers := s.workers.set w WSt.stopped }

/-- States reachable from the initial state of a pool of size `n`. -/
inductive Reachable (n : Nat) : SysState → Prop where
  | init : Reachable n (initState n)
  | step {s s₂ : SysState} : Reachable n s → Step s s₂ → Reachable n s₂

/-- The inductive invariant of the transition system:
the worker count is fixed; the dequeued jobs followed by the buffered jobs
are exactly the submitted jobs in submission order; completions plus
in-flight jobs account for exactly the dequeued jobs; a stopped worker
implies the channel was disconnected; and once a (nonempty) pool has all
workers stopped the buffer is empty. -/
def Inv (n : Nat) (s : SysState) : Prop :=
  s.workers.length = n ∧
  s.takes.map Prod.snd ++ s.pending = List.range s.nextId ∧
  (s.finishes.map Prod.snd ++ busyJobs s).Perm (s.takes.map Prod.snd) ∧
  ((∃ w ∈ s.workers, w = WSt.stopped) → s.closed = true) ∧
  ((s.workers ≠ [] ∧ ∀ w ∈ s.workers, w = WSt.stopped) → s.pending = [])

/-! ### HTTP handler (`src/main.rs`) -/

/-- The `match &request_line[..]` in `handle_connection`: status line and
file name for the two recognized request lines, 404 otherwise. -/
def route (request_line : String) : String × String :=
  if request_line = "GET / HTTP/1.1" then ("HTTP/1.1 200 OK", "home.html")
  else if request_line = "GET /about HTTP/1.1" then ("HTTP/1.1 200 OK", "about.html")
  else ("HTTP/1.1 404 NOT FOUND", "404.html")

/-- The `format!("{status_line}\r\nContent-Length: {length}\r\n\r\n{contents}")`
line, where `length = contents.len()` is the UTF-8 byte length of the Rust
`String`. -/
def mkResponse (status_line contents : String) : String :=
  status_line ++ "\r\nContent-Length: " ++ toString contents.utf8ByteSize
    ++ "\r\n\r\n" ++ contents

/-- The pure core of `handle_connection`: classify the request line, read
`./html/{filename}` (the file system is the function `files`; the Rust
code unwraps the read, so we consider the successful case), and build the
response. -/
def handle_connection (files : String → String) (request_line : String) : String :=
  let sf := route request_line
  let contents := files ("./html/" ++ sf.2)
  mkResponse sf.1 contents

/-! ### Helper lemmas -/

theorem foldl_append_map {α β : Type} (g : α → β) (l : List α) :
    ∀ init : List β, l.foldl (fun acc w => acc ++ [g w]) init = init ++ l.map g := by
  induction l with
  | nil => simp
  | cons x xs ih => intro init; simp [ih]

theorem busyOf_idle : busyOf WSt.idle = none := rfl

theorem busyOf_stopped : busyOf WSt.stopped = none := rfl

theorem busyOf_busy (j : Nat) : busyOf (WSt.busy j) = some j := rfl

theorem count_filterMap_set (f : WSt → Option Nat) (l : List WSt) (w : Nat) (a b : WSt)
    (h : l[w]? = some a) (c : Nat) :
    ((l.set w b).filterMap f).count c + ((f a).toList).count c
      = (l.filterMap f).count c + ((f b).toList).count c := by
  induction l generalizing w with
  | nil => simp at h
  | cons x xs ih =>
    cases w with
    | zero =>
      simp only [List.getElem?_cons_zero, Option.some.injEq] at h
      subst h
      rcases hfa : f x with _ | ya <;> rcases hfb : f b with _ | yb <;>
        simp [List.filterMap_cons, hfa, hfb, List.count_cons]
      all_goals omega
    | succ w₂ =>
      simp only [List.getElem?_cons_succ] at h
      have hih := ih w₂ h
      rcases hfx : f x with _ | y <;>
        simp only [List.set_cons_succ, List.filterMap_cons, hfx, List.count_cons] <;> omega

/-! ### The invariant holds in every reachable state -/

theorem inv_init (n : Nat) : Inv n (initState n) := by
  refine ⟨by simp [initState], by simp [initState], ?_, ?_, ?_⟩
  · simp only [initState, busyJobs, List.map_nil, List.nil_append]
    rw [List.filterMap_eq_nil_iff.mpr]
    intro a ha
    rw [List.eq_of_mem_replicate ha]
    rfl
  · rintro ⟨x, hx, rfl⟩
    have := List.eq_of_mem_replicate hx
    simp at this
  · intro _
    rfl

theorem inv_step {n : Nat} {s s₂ : SysState} (hs : Inv n s) (hstep : Step s s₂) :
    Inv n s₂ := by
  obtain ⟨hlen, hfifo, hperm, hstopc, hallstop⟩ := hs
  cases hstep with
  | submit h =>
    refine ⟨hlen, ?_, hperm, hstopc, ?_⟩
    · show s.takes.map Prod.snd ++ (s.pending ++ [s.nextId]) = List.range (s.nextId + 1)
      rw [List.range_succ, ← hfifo, List.append_assoc]
    · rintro ⟨hne, hall⟩
      obtain ⟨x, hx⟩ := List.exists_mem_of_ne_nil _ hne
      have hc := hstopc ⟨x, hx, hall x hx⟩
      simp [h] at hc
  | take w j rest hw hq =>
    obtain ⟨hlt, _⟩ := List.getElem?_eq_some_iff.mp hw
    refine ⟨?_, ?_, ?_, ?_, ?_⟩
    · show (s.workers.set w (WSt.busy j)).length = n
      rw [List.length_set]; exact hlen
    · show (s.takes ++ [(w, j)]).map Prod.snd ++ rest = List.range s.nextId
      rw [hq] at hfifo
      rw [List.map_append]
      simpa [List.append_assoc] using hfifo
    · show (s.finishes.map Prod.snd ++
          (s.workers.set w (WSt.busy j)).filterMap busyOf).Perm
          ((s.takes ++ [(w, j)]).map Prod.snd)
      rw [List.perm_iff_count]
      intro c
      have hcnt := count_filterMap_set busyOf s.workers w WSt.idle (WSt.busy j) hw c
      simp only [busyOf_idle, busyOf_busy, Option.toList, List.count_nil] at hcnt
      have hold := List.perm_iff_count.mp hperm c
      simp only [busyJobs, List.count_append] at hold
      simp only [List.map_append, List.count_append, List.map_cons, List.map_nil]
      omega
    · rintro ⟨x, hx, rfl⟩
      rcases List.mem_or_eq_of_mem_set hx with hx₂ | heq
      · exact hstopc ⟨_, hx₂, rfl⟩
      · simp at heq
    · rintro ⟨hne, hall⟩
      have hmem : WSt.busy j ∈ s.workers.set w (WSt.busy j) :=
        List.getElem?_mem (List.getElem?_set_self hlt)
      have := hall _ hmem
      simp at this
  | finish w j hw =>
    obtain ⟨hlt, _⟩ := List.getElem?_eq_some_iff.mp hw
    refine ⟨?_, hfifo, ?_, ?_, ?_⟩
    · show (s.workers.set w WSt.idle).length = n
      rw [List.length_set]; exact hlen
    · show ((s.finishes ++ [(w, j)]).map Prod.snd ++
          (s.workers.set w WSt.idle).filterMap busyOf).Perm (s.takes.map Prod.snd)
      rw [List.perm_iff_count]
      intro c
      have hcnt := count_filterMap_set busyOf s.workers w (WSt.busy j) WSt.idle hw c
      simp only [busyOf_idle, busyOf_busy, Option.toList, List.count_nil] at hcnt
      have hold := List.perm_iff_count.mp hperm c
      simp only [busyJobs, List.count_append] at hold
      simp only [List.map_append, List.count_append, List.map_cons, List.map_nil]
      omega
    · rintro ⟨x, hx, rfl⟩
      rcases List.mem_or_eq_of_mem_set hx with hx₂ | heq
      · exact hstopc ⟨_, hx₂, rfl⟩
      · simp at heq
    · rintro ⟨hne, hall⟩
      have hmem : WSt.idle ∈ s.workers.set w WSt.idle :=
        List.getElem?_mem (List.getElem?_set_self hlt)
      have := hall _ hmem
      simp at this
  | close h =>
    exact ⟨hlen, hfifo, hperm, fun _ => rfl, fun hh => hallstop hh⟩
  | exits w hw hc hq =>
    obtain ⟨hlt, _⟩ := List.getElem?_eq_some_iff.mp hw
    refine ⟨?_, hfifo, ?_, fun _ => hc, fun _ => hq⟩
    · show (s.workers.set w WSt.stopped).length = n
      rw [List.length_set]; exact hlen
    · show (s.finishes.map Prod.snd ++
          (s.workers.set w WSt.stopped).filterMap busyOf).Perm (s.takes.map Prod.snd)
      rw [List.perm_iff_count]
      intro c
      have hcnt := count_filterMap_set busyOf s.workers w WSt.idle WSt.stopped hw c
      simp only [busyOf_idle, busyOf_stopped, Option.toList, List.count_nil] at hcnt
      have hold := List.perm_iff_count.mp hperm c
      simp only [busyJobs, List.count_append] at hold
      simp only [List.count_append]
      omega

theorem reachable_inv {n : Nat} {s : SysState} (h : Reachable n s) : Inv n s := by
  induction h with
  | init => exact inv_init n
  | step _ hstep ih => exact inv_step ih hstep

/-! ### Construction theorems -/

/-- C4: for every `N ≥ 1`, both constructors produce a pool of exactly `N`
workers with ids `0, …, N-1` in order, every worker holding the consumer
handle of the one shared channel, and the pool holding the producer handle
of that same channel. -/
theorem construct_spawns_exactly (n : Nat) (hn : 0 < n) :
    ∃ p : ThreadPool, ThreadPool.new n = some p ∧ ThreadPool.build n = Except.ok p ∧
      p.workers.length = n ∧
      p.workers.map Worker.id = List.range n ∧
      (∀ w ∈ p.workers, w.rxChannel = 0 ∧ w.hasThread = true) ∧
      p.sender = some 0 := by
  cases n with
  | zero => omega
  | succ m =>
    refine ⟨{ workers := mkWorkers (m + 1) 0, sender := some 0 }, ?_, rfl, ?_, ?_, ?_, rfl⟩
    · simp [ThreadPool.new]
    · simp [mkWorkers]
    · simp only [mkWorkers, List.map_map]
      exact List.map_id _
    · intro w hw
      simp only [mkWorkers, List.mem_map, List.mem_range] at hw
      obtain ⟨i, _, rfl⟩ := hw
      exact ⟨rfl, rfl⟩

/-- Witness for C4 at `n = 3`. -/
theorem construct_spawns_exactly_witness :
    ∃ p : ThreadPool, ThreadPool.new 3 = some p ∧ ThreadPool.build 3 = Except.ok p ∧
      p.workers.length = 3 ∧
      p.workers.map Worker.id = List.range 3 ∧
      (∀ w ∈ p.workers, w.rxChannel = 0 ∧ w.hasThread = true) ∧
      p.sender = some 0 :=
  construct_spawns_exactly 3 (by decide)

/-- C5: size `0` is a construction error in both forms: `build 0` returns
the recoverable `SizeZero` error (so in particular never a pool of
workers), and `new 0` fails its assertion, aborting the process. -/
theorem zero_size_is_construction_error :
    ThreadPool.build 0 = Except.error PoolCreationError.SizeZero ∧
    (∀ p : ThreadPool, ThreadPool.build 0 ≠ Except.ok p) ∧
    ThreadPool.new 0 = none := by
  refine ⟨rfl, ?_, by simp [ThreadPool.new]⟩
  intro p h
  simp [ThreadPool.build] at h

/-- C6: for every `size ≥ 1` the fallible constructor succeeds and returns
the very same pool value as the unchecked constructor: same workers, same
ids, same channel wiring, same producer handle. -/
theorem build_agrees_with_new (n : Nat) (hn : 0 < n) :
    ∃ p : ThreadPool, ThreadPool.build n = Except.ok p ∧ ThreadPool.new n = some p := by
  cases n with
  | zero => omega
  | succ m => exact ⟨_, rfl, by simp [ThreadPool.new]⟩

/-- Witness for C6 at `n = 2`. -/
theorem build_agrees_with_new_witness :
    ∃ p : ThreadPool, ThreadPool.build 2 = Except.ok p ∧ ThreadPool.new 2 = some p :=
  build_agrees_with_new 2 (by decide)

/-! ### Submission after disposal -/

/-- C7: submitting once disposal has begun (producer handle taken, or
channel without consumers) raises a panic — a signalled, reportable
failure, modelled as `Except.error` — and never succeeds silently; the
job is not enqueued and not silently discarded without a signal. -/
theorem execute_after_disposal_signals (sp ra : Bool) (q : List Nat) (j : Nat)
    (h : sp = false ∨ ra = false) :
    (∃ e, executeResult sp ra q j = Except.error e) ∧
    ∀ q₂, executeResult sp ra q j ≠ Except.ok q₂ := by
  rcases h with rfl | rfl
  · exact ⟨⟨.senderAbsent, rfl⟩, fun q₂ hq => by simp [executeResult] at hq⟩
  · cases sp
    · exact ⟨⟨.senderAbsent, rfl⟩, fun q₂ hq => by simp [executeResult] at hq⟩
    · exact ⟨⟨.sendFailed, rfl⟩, fun q₂ hq => by simp [executeResult] at hq⟩

/-- Witness for C7: a pool whose sender was already taken. -/
theorem execute_after_disposal_signals_witness :
    (∃ e, executeResult false true [] 7 = Except.error e) ∧
    ∀ q₂, executeResult false true [] 7 ≠ Except.ok q₂ :=
  execute_after_disposal_signals false true [] 7 (Or.inl rfl)

/-! ### Disposal panics on abnormal worker exit -/

/-- C10: the join loop of `Drop::drop` returns normally exactly when every
worker thread exited cleanly; if some worker's thread panicked, `drop`
itself panics at the first such worker (`thread.join().unwrap()`), and the
worker it panics on did terminate abnormally. -/
theorem drop_panics_iff_worker_abnormal (outcomes : List Bool) :
    (joinWorkers outcomes = Except.ok () ↔ ∀ b ∈ outcomes, b = false) ∧
    (∀ i, joinWorkers outcomes = Except.error i → outcomes[i]? = some true) := by
  induction outcomes with
  | nil => constructor <;> simp [joinWorkers]
  | cons b rest ih =>
    obtain ⟨ih1, ih2⟩ := ih
    cases b
    · constructor
      · rcases hjr : joinWorkers rest with i | u
        · simp only [joinWorkers, if_neg Bool.false_ne_true, hjr]
          constructor
          · intro hcontra; simp [Except.mapError] at hcontra
          · intro hall
            have : joinWorkers rest = Except.ok () := ih1.mpr (by
              intro x hx; exact hall x (List.mem_cons_of_mem _ hx))
            rw [hjr] at this; cases this
        · simp only [joinWorkers, if_neg Bool.false_ne_true, hjr, Except.mapError]
          have : ∀ x ∈ rest, x = false := ih1.mp (by rw [hjr])
          simp only [List.mem_cons, true_iff]
          intro x hx
          rcases hx with rfl | hx
          · rfl
          · exact this x hx
      · intro i hi
        rcases hjr : joinWorkers rest with i₀ | u
        · rw [joinWorkers, if_neg Bool.false_ne_true, hjr] at hi
          simp only [Except.mapError] at hi
          cases hi
          simpa using ih2 i₀ hjr
        · rw [joinWorkers, if_neg Bool.false_ne_true, hjr] at hi
          simp [Except.mapError] at hi
    · constructor
      · constructor
        · intro hcontra; rw [joinWorkers, if_pos rfl] at hcontra; cases hcontra
        · intro hall
          have := hall true (List.mem_cons_self _ _)
          cases this
      · intro i hi
        rw [joinWorkers, if_pos rfl] at hi
        cases hi
        simp

/-- Witness for C10: one clean worker, then a panicked one. -/
theorem drop_panics_iff_worker_abnormal_witness :
    (joinWorkers [false, true] = Except.ok () ↔ ∀ b ∈ [false, true], b = false) ∧
    (∀ i, joinWorkers [false, true] = Except.error i → [false, true][i]? = some true) :=
  drop_panics_iff_worker_abnormal [false, true]

/-! ### A concrete run: two workers, two jobs, full shutdown -/

/-- End state of a concrete run of a pool of size 2: both jobs submitted,
each taken and finished by a distinct worker, channel closed, both
workers exited. -/
def demoFinal : SysState :=
  { nextId := 2, pending := [], closed := true
    workers := [WSt.stopped, WSt.stopped]
    takes := [(0, 0), (1, 1)], finishes := [(0, 0), (1, 1)] }

theorem demoFinal_reachable : Reachable 2 demoFinal := by
  have h0 : Reachable 2 (initState 2) := Reachable.init
  have h1 := Reachable.step h0 (Step.submit _ rfl)
  have h2 := Reachable.step h1 (Step.submit _ rfl)
  have h3 := Reachable.step h2 (Step.take _ 0 0 [1] rfl rfl)
  have h4 := Reachable.step h3 (Step.take _ 1 1 [] rfl rfl)
  have h5 := Reachable.step h4 (Step.finish _ 0 0 rfl)
  have h6 := Reachable.step h5 (Step.finish _ 1 1 rfl)
  have h7 := Reachable.step h6 (Step.close _ rfl)
  have h8 := Reachable.step h7 (Step.exits _ 0 rfl rfl rfl)
  exact Reachable.step h8 (Step.exits _ 1 rfl rfl rfl)

/-! ### Delivery and shutdown theorems -/

/-- C1: in every reachable state, the dequeued jobs followed by the still
buffered jobs are exactly the submitted jobs in submission order (so jobs
are handed over in submission order, with no loss and no duplication);
any two dequeue events of the same job coincide (so each job goes to
exactly one worker, once); and when every worker has exited, the finished
jobs are exactly the submitted jobs, each exactly once. -/
theorem jobs_delivered_once_in_order (n : Nat) (s : SysState) (h : Reachable n s) :
    s.takes.map Prod.snd ++ s.pending = List.range s.nextId ∧
    (∀ p ∈ s.takes, ∀ q ∈ s.takes, p.2 = q.2 → p = q) ∧
    ((s.workers ≠ [] ∧ ∀ w ∈ s.workers, w = WSt.stopped) →
      (s.finishes.map Prod.snd).Perm (List.range s.nextId)) := by
  obtain ⟨hlen, hfifo, hperm, hstopc, hallstop⟩ := reachable_inv h
  refine ⟨hfifo, ?_, ?_⟩
  · have hnd : (s.takes.map Prod.snd).Nodup := by
      have hr := List.nodup_range s.nextId
      rw [← hfifo] at hr
      exact hr.of_append_left
    intro p hp q hq hpq
    exact List.inj_on_of_nodup_map hnd hp hq hpq
  · intro hall
    have hpend : s.pending = [] := hallstop hall
    have hbusy : busyJobs s = [] := by
      rw [busyJobs, List.filterMap_eq_nil_iff]
      intro a ha
      rw [hall.2 a ha]
      rfl
    have hp : (s.finishes.map Prod.snd).Perm (s.takes.map Prod.snd) := by
      simpa [hbusy] using hperm
    rw [← hfifo, hpend, List.append_nil]
    exact hp

/-- Witness for C1: the two-worker run `demoFinal`. -/
theorem jobs_delivered_once_in_order_witness :
    demoFinal.takes.map Prod.snd ++ demoFinal.pending = List.range demoFinal.nextId ∧
    (∀ p ∈ demoFinal.takes, ∀ q ∈ demoFinal.takes, p.2 = q.2 → p = q) ∧
    ((demoFinal.workers ≠ [] ∧ ∀ w ∈ demoFinal.workers, w = WSt.stopped) →
      (demoFinal.finishes.map Prod.snd).Perm (List.range demoFinal.nextId)) :=
  jobs_delivered_once_in_order 2 demoFinal demoFinal_reachable

/-- C2: disposal performs its actions in the order: drop the sender first,
then join each worker in construction order; and once disposal has
returned — every worker joined, hence stopped — the channel is closed,
no submitted job is left unexecuted (the buffer is empty and the finished
jobs are exactly the submitted ones, each completed exactly once), and no
worker thread of execution remains alive. -/
theorem dispose_closes_then_joins_and_drains (n : Nat) (hn : 0 < n) (s : SysState)
    (h : Reachable n s) (hstop : ∀ w ∈ s.workers, w = WSt.stopped) :
    s.closed = true ∧ s.pending = [] ∧
    (s.finishes.map Prod.snd).Perm (List.range s.nextId) ∧
    (∀ w ∈ s.workers, w = WSt.stopped) ∧
    (∀ p : ThreadPool, dropActions p
      = DropAction.dropSender :: p.workers.map (fun w => DropAction.join w.id)) := by
  obtain ⟨hlen, hfifo, hperm, hstopc, hallstop⟩ := reachable_inv h
  have hne : s.workers ≠ [] := by
    intro hnil
    rw [hnil] at hlen
    simp at hlen
    omega
  obtain ⟨x, hx⟩ := List.exists_mem_of_ne_nil _ hne
  refine ⟨hstopc ⟨x, hx, hstop x hx⟩, hallstop ⟨hne, hstop⟩, ?_, hstop, ?_⟩
  · exact (jobs_delivered_once_in_order n s h).2.2 ⟨hne, hstop⟩
  · intro p
    rw [dropActions, foldl_append_map]
    rfl

/-- Witness for C2: the two-worker run `demoFinal`. -/
theorem dispose_closes_then_joins_and_drains_witness :
    demoFinal.closed = true ∧ demoFinal.pending = [] ∧
    (demoFinal.finishes.map Prod.snd).Perm (List.range demoFinal.nextId) ∧
    (∀ w ∈ demoFinal.workers, w = WSt.stopped) ∧
    (∀ p : ThreadPool, dropActions p
      = DropAction.dropSender :: p.workers.map (fun w => DropAction.join w.id)) :=
  dispose_closes_then_joins_and_drains 2 (by decide) demoFinal demoFinal_reachable
    (by decide)

/-- C3: along any transition, a worker leaves the running states only by
the closed-signal: if it becomes stopped it was idle in `recv`, the
channel was disconnected and drained (crossbeam's only `recv` error); and
stopped is terminal — the thread of execution never comes back. -/
theorem worker_loop_contract (s s₂ : SysState) (w : Nat) (hstep : Step s s₂) :
    (s.workers[w]? ≠ some WSt.stopped → s₂.workers[w]? = some WSt.stopped →
      s.closed = true ∧ s.pending = [] ∧ s.workers[w]? = some WSt.idle) ∧
    (s.workers[w]? = some WSt.stopped → s₂.workers[w]? = some WSt.stopped) := by
  cases hstep with
  | submit h => exact ⟨fun hns hs => absurd hs hns, fun hs => hs⟩
  | take w₂ j rest hw hq =>
    obtain ⟨hlt, _⟩ := List.getElem?_eq_some_iff.mp hw
    constructor
    · intro hns hs
      by_cases hww : w₂ = w
      · subst hww
        rw [show ({ s with
              pending := rest
              workers := s.workers.set w₂ (WSt.busy j)
              takes := s.takes ++ [(w₂, j)] } : SysState).workers
            = s.workers.set w₂ (WSt.busy j) from rfl,
          List.getElem?_set_self hlt] at hs
        cases hs
      · rw [show ({ s with
              pending := rest
              workers := s.workers.set w₂ (WSt.busy j)
              takes := s.takes ++ [(w₂, j)] } : SysState).workers
            = s.workers.set w₂ (WSt.busy j) from rfl,
          List.getElem?_set_ne hww] at hs
        exact absurd hs hns
    · intro hs
      by_cases hww : w₂ = w
      · subst hww
        rw [hw] at hs
        cases hs
      · show (s.workers.set w₂ (WSt.busy j))[w]? = some WSt.stopped
        rw [List.getElem?_set_ne hww]
        exact hs
  | finish w₂ j hw =>
    obtain ⟨hlt, _⟩ := List.getElem?_eq_some_iff.mp hw
    constructor
    · intro hns hs
      by_cases hww : w₂ = w
      · subst hww
        rw [show ({ s with
              workers := s.workers.set w₂ WSt.idle
              finishes := s.finishes ++ [(w₂, j)] } : SysState).workers
            = s.workers.set w₂ WSt.idle from rfl,
          List.getElem?_set_self hlt] at hs
        cases hs
      · rw [show ({ s with
              workers := s.workers.set w₂ WSt.idle
              finishes := s.finishes ++ [(w₂, j)] } : SysState).workers
            = s.workers.set w₂ WSt.idle from rfl,
          List.getElem?_set_ne hww] at hs
        exact absurd hs hns
    · intro hs
      by_cases hww : w₂ = w
      · subst hww
        rw [hw] at hs
        cases hs
      · show (s.workers.set w₂ WSt.idle)[w]? = some WSt.stopped
        rw [List.getElem?_set_ne hww]
        exact hs
  | close h => exact ⟨fun hns hs => absurd hs hns, fun hs => hs⟩
  | exits w₂ hw hc hq =>
    constructor
    · intro hns hs
      by_cases hww : w₂ = w
      · subst hww
        exact ⟨hc, hq, hw⟩
      · rw [show ({ s with workers := s.workers.set w₂ WSt.stopped } : SysState).workers
            = s.workers.set w₂ WSt.stopped from rfl,
          List.getElem?_set_ne hww] at hs
        exact absurd hs hns
    · intro hs
      by_cases hww : w₂ = w
      · subst hww
        rw [hw] at hs
        cases hs
      · show (s.workers.set w₂ WSt.stopped)[w]? = some WSt.stopped
        rw [List.getElem?_set_ne hww]
        exact hs

/-- Pre-state of the `exits` transition used to witness C3. -/
def demoPre : SysState :=
  { nextId := 2, pending := [], closed := true
    workers := [WSt.idle, WSt.idle]
    takes := [(0, 0), (1, 1)], finishes := [(0, 0), (1, 1)] }

/-- Post-state of the `exits` transition used to witness C3. -/
def demoMid : SysState :=
  { nextId := 2, pending := [], closed := true
    workers := [WSt.stopped, WSt.idle]
    takes := [(0, 0), (1, 1)], finishes := [(0, 0), (1, 1)] }

/-- Witness for C3: worker 0 exiting on the closed-signal. -/
theorem worker_loop_contract_witness :
    (demoPre.workers[0]? ≠ some WSt.stopped → demoMid.workers[0]? = some WSt.stopped →
      demoPre.closed = true ∧ demoPre.pending = [] ∧
      demoPre.workers[0]? = some WSt.idle) ∧
    (demoPre.workers[0]? = some WSt.stopped → demoMid.workers[0]? = some WSt.stopped) :=
  worker_loop_contract demoPre demoMid 0 (Step.exits demoPre 0 rfl rfl rfl)

/-- C9: a worker tied up by a blocking job does not stop the others: from
any state where worker `w` is stuck executing job `jb` and another worker
`wf` is idle with a job buffered, `wf` can dequeue that job and run it to
completion in two transitions, during which `w`'s state never changes —
the mutual exclusion protects only the dequeue, not job execution. -/
theorem blocked_worker_does_not_block_others (s : SysState) (w wf jb j : Nat)
    (rest : List Nat)
    (hw : s.workers[w]? = some (WSt.busy jb))
    (hwf : s.workers[wf]? = some WSt.idle)
    (hne : wf ≠ w)
    (hq : s.pending = j :: rest) :
    ∃ s₂ s₃, Step s s₂ ∧ Step s₂ s₃ ∧
      s₂.workers[w]? = some (WSt.busy jb) ∧
      s₃.workers[w]? = some (WSt.busy jb) ∧
      s₃.workers[wf]? = some WSt.idle ∧
      s₃.takes = s.takes ++ [(wf, j)] ∧
      s₃.finishes = s.finishes ++ [(wf, j)] := by
  obtain ⟨hlt, _⟩ := List.getElem?_eq_some_iff.mp hwf
  have hlt₂ : wf < (s.workers.set wf (WSt.busy j)).length := by
    rw [List.length_set]
    exact hlt
  have hbusy : (s.workers.set wf (WSt.busy j))[wf]? = some (WSt.busy j) :=
    List.getElem?_set_self hlt
  refine ⟨_, _, Step.take s wf j rest hwf hq, Step.finish _ wf j hbusy, ?_, ?_, ?_, rfl, rfl⟩
  · show (s.workers.set wf (WSt.busy j))[w]? = some (WSt.busy jb)
    rw [List.getElem?_set_ne hne]
    exact hw
  · show ((s.workers.set wf (WSt.busy j)).set wf WSt.idle)[w]? = some (WSt.busy jb)
    rw [List.getElem?_set_ne hne, List.getElem?_set_ne hne]
    exact hw
  · show ((s.workers.set wf (WSt.busy j)).set wf WSt.idle)[wf]? = some WSt.idle
    exact List.getElem?_set_self hlt₂

/-- State used to witness C9: worker 0 blocked in job 0, worker 1 idle,
job 2 buffered. -/
def demoBlocked : SysState :=
  { nextId := 3, pending := [2], closed := false
    workers := [WSt.busy 0, WSt.idle]
    takes := [(0, 0), (1, 1)], finishes := [(1, 1)] }

/-- Witness for C9: worker 1 takes and finishes job 2 while worker 0 stays
busy with job 0. -/
theorem blocked_worker_does_not_block_others_witness :
    ∃ s₂ s₃, Step demoBlocked s₂ ∧ Step s₂ s₃ ∧
      s₂.workers[0]? = some (WSt.busy 0) ∧
      s₃.workers[0]? = some (WSt.busy 0) ∧
      s₃.workers[1]? = some WSt.idle ∧
      s₃.takes = demoBlocked.takes ++ [(1, 2)] ∧
      s₃.finishes = demoBlocked.finishes ++ [(1, 2)] :=
  blocked_worker_does_not_block_others demoBlocked 0 1 0 2 [] rfl rfl
    (by decide) rfl

/-! ### HTTP responder theorems -/

/-- C8: the exact request line `GET / HTTP/1.1` produces the status line
`HTTP/1.1 200 OK` with the home resource as body; any request line outside
the recognized set produces the 404 status line with the 404 body; and in
every response the `Content-Length` header value is the UTF-8 byte length
of the body that follows the blank line. -/
theorem http_response_contract (files : String → String) (rl : String)
    (h1 : rl ≠ "GET / HTTP/1.1") (h2 : rl ≠ "GET /about HTTP/1.1") :
    handle_connection files "GET / HTTP/1.1"
      = "HTTP/1.1 200 OK" ++ "\r\nContent-Length: "
        ++ toString (files "./html/home.html").utf8ByteSize ++ "\r\n\r\n"
        ++ files "./html/home.html" ∧
    handle_connection files rl
      = "HTTP/1.1 404 NOT FOUND" ++ "\r\nContent-Length: "
        ++ toString (files "./html/404.html").utf8ByteSize ++ "\r\n\r\n"
        ++ files "./html/404.html" ∧
    ∀ rl₂, ∃ status body, handle_connection files rl₂
      = status ++ "\r\nContent-Length: " ++ toString body.utf8ByteSize
        ++ "\r\n\r\n" ++ body := by
  refine ⟨?_, ?_, ?_⟩
  · simp [handle_connection, route, mkResponse]
  · simp [handle_connection, route, mkResponse, h1, h2]
  · intro rl₂
    exact ⟨(route rl₂).1, files ("./html/" ++ (route rl₂).2), rfl⟩

/-- Witness for C8: a one-file filesystem and the request line
`GET /missing HTTP/1.1`. -/
theorem http_response_contract_witness :
    (handle_connection (fun _ => "hello") "GET / HTTP/1.1"
      = "HTTP/1.1 200 OK" ++ "\r\nContent-Length: "
        ++ toString ("hello" : String).utf8ByteSize ++ "\r\n\r\n" ++ "hello" ∧
    handle_connection (fun _ => "hello") "GET /missing HTTP/1.1"
      = "HTTP/1.1 404 NOT FOUND" ++ "\r\nContent-Length: "
        ++ toString ("hello" : String).utf8ByteSize ++ "\r\n\r\n" ++ "hello" ∧
    ∀ rl₂, ∃ status body, handle_connection (fun _ => "hello") rl₂
      = status ++ "\r\nContent-Length: " ++ toString body.utf8ByteSize
        ++ "\r\n\r\n" ++ body) :=
  http_response_contract (fun _ => "hello") "GET /missing HTTP/1.1"
    (by decide) (by decide)

end SimpleHtmlServer
